import Mathlib

/-!
# The FRR Lua bridge, `lib/frrlua.c`

A shallow embedding of `lib/frrlua.c` and of the part of the Lua 5.3 C API it calls.

* The interpreter state is an explicit record: the evaluation stack of the running
  frame, the table heap, the reference of the globals table, and (carried along so
  that logging is observable) the host log and a flag set by `lua_close`.
* Values carry no metatables: indexing a value that is not a table raises a Lua error,
  and table access is raw.
* What the embedded interpreter decides on its own (running a script function, loading
  a file, opening the libraries, converting between strings and numbers) is a field of
  `Interp`, a parameter of every operation that needs it.
* What the host declares outside this file (`LUA_RM_FAILURE`, `prefix2str`) is a field
  of `Host`.
* An operation that may not return normally has a result in `Run`.
-/

set_option autoImplicit false

namespace Frrlua

/-! ## C integers -/

/-- Two's complement value of `x` in a signed integer type of `w` bits. -/
def wrapSigned (w : Nat) (x : Int) : Int :=
  (x + 2 ^ (w - 1)) % 2 ^ w - 2 ^ (w - 1)

/-- Conversion to C `int` (32 bits). -/
def c_int (x : Int) : Int := wrapSigned 32 x

/-- Conversion to `lua_Integer` (`long long`, 64 bits). -/
def c_lua_Integer (x : Int) : Int := wrapSigned 64 x

/-- Whether `x` is a value of C `int`. -/
def fitsInt (x : Int) : Prop := -2 ^ 31 ≤ x ∧ x < 2 ^ 31

instance (x : Int) : Decidable (fitsInt x) :=
  inferInstanceAs (Decidable (-2 ^ 31 ≤ x ∧ x < 2 ^ 31))

/-! ## Lua values -/

/-- A `lua_Number` (C `double`), by its mathematical value. -/
inductive lua_Number
  | finite (q : ℚ)
  | inf (neg : Bool)
  | nan
  deriving DecidableEq, Repr

/-- The C functions of `frrlua.c` that are handed to the interpreter as callables. -/
inductive CFunc
  | frrlua_log_debug
  | frrlua_log_info
  | frrlua_log_notice
  | frrlua_log_warn
  | frrlua_log_error
  deriving DecidableEq, Repr

/-- A Lua value. `closure fid` is a script function or a library function, whose
behaviour is given by `Interp.call fid`; `cfunction f` is a C function of this file. -/
inductive LuaValue
  | nil
  | boolean (b : Bool)
  | integer (i : Int)
  | number (n : lua_Number)
  | string (s : String)
  | table (ref : Nat)
  | closure (fid : Nat)
  | cfunction (f : CFunc)
  | userdata (id : Nat)
  | thread (id : Nat)
  deriving DecidableEq, Repr

/-- Name of the type of a value, as `luaT_objtypename` gives it. -/
def LuaValue.typename : LuaValue → String
  | .nil => "nil"
  | .boolean _ => "boolean"
  | .integer _ => "number"
  | .number _ => "number"
  | .string _ => "string"
  | .table _ => "table"
  | .closure _ => "function"
  | .cfunction _ => "function"
  | .userdata _ => "userdata"
  | .thread _ => "thread"

/-- Whether a call of the value enters a function. -/
def LuaValue.callable : LuaValue → Bool
  | .closure _ => true
  | .cfunction _ => true
  | _ => false

/-- A table: its entries, most recently created key first; no key occurs twice and
no entry holds `nil`. -/
abbrev Table := List (LuaValue × LuaValue)

/-- `lua_Number` of a `lua_Integer` (`cast_num`): exact up to 53 bits, beyond that
rounded to the nearest double, ties to even. -/
def cast_num (i : Int) : lua_Number :=
  let a := i.natAbs
  if a < 2 ^ 53 then .finite i
  else
    let e := Nat.log2 a - 52
    let m := a / 2 ^ e
    let r := a % 2 ^ e
    let half := 2 ^ (e - 1)
    let m := if half < r ∨ (r = half ∧ m % 2 = 1) then m + 1 else m
    let v : Int := (m * 2 ^ e : Nat)
    .finite (if i < 0 then -v else v)

/-- `lua_Integer` of a `lua_Number` (`luaV_tointeger`, mode 0): only a float with an
exact integer value in range converts. -/
def luaV_flttoint : lua_Number → Option Int
  | .finite q => if q.den = 1 ∧ -2 ^ 63 ≤ q.num ∧ q.num < 2 ^ 63 then some q.num else none
  | _ => none

/-- C conversion of a `double` to `int`: truncation toward zero; `none` where the
truncated value is not a value of `int` and the C conversion is undefined. -/
def double2int : lua_Number → Option Int
  | .finite q => let t := Int.tdiv q.num q.den; if fitsInt t then some t else none
  | _ => none

/-- Key under which a table stores a value indexed by `k`: a float key with an exact
integer value is the integer key. -/
def normKey : LuaValue → LuaValue
  | .number n => match luaV_flttoint n with
    | some i => .integer i
    | none => .number n
  | k => k

/-- Raw read `t[k]` (`luaH_get`): `nil` for an absent key. -/
def luaH_get (t : Table) (k : LuaValue) : LuaValue :=
  match t.find? (fun e => e.1 = normKey k) with
  | some e => e.2
  | none => .nil

/-- Raw write `t[k] = v` (`luaH_set` on a key that is neither `nil` nor NaN); writing
`nil` removes the key. -/
def luaH_set (t : Table) (k v : LuaValue) : Table :=
  let t' := t.filter (fun e => e.1 ≠ normKey k)
  if v = .nil then t' else (normKey k, v) :: t'

/-! ## Host log, interpreter state, outcomes -/

/-- Severities of the host log sinks `zlog_debug` .. `zlog_err`. -/
inductive Severity
  | debug | info | notice | warn | err
  deriving DecidableEq, Repr

/-- One record emitted to the host log. `msg = none` is a NULL pointer handed to
the `%s` conversion. -/
structure LogRecord where
  severity : Severity
  msg : Option String
  deriving DecidableEq, Repr

/-- Ways in which an operation does not return normally to its caller. -/
inductive Stop
  /-- a failed `assert`: the process aborts -/
  | assertion
  /-- a Lua error raised outside the call being modelled (a panic when no protected
  call encloses it) -/
  | lua_error
  /-- behaviour the C language or the Lua API leaves undefined -/
  | undefined
  /-- the script does not terminate -/
  | hang
  deriving DecidableEq, Repr

/-- Result of an operation that may stop. -/
abbrev Run := Except Stop

/-- Interpreter state. The stack is the part of the evaluation stack that belongs to
the running frame, top first: index `-1` is the head, index `1` the last element. -/
structure lua_State where
  stack : List LuaValue
  heap : List Table
  globals : Nat
  zlog : List LogRecord
  closed : Bool
  deriving DecidableEq, Repr

/-- Non-zero thread status codes of Lua 5.3. -/
inductive ErrStatus
  | LUA_ERRRUN | LUA_ERRSYNTAX | LUA_ERRMEM | LUA_ERRGCMM | LUA_ERRERR | LUA_ERRFILE
  deriving DecidableEq, Repr

/-- Numeric value of a status code (`lua.h`, `lauxlib.h`). -/
def ErrStatus.code : ErrStatus → Int
  | .LUA_ERRRUN => 2
  | .LUA_ERRSYNTAX => 3
  | .LUA_ERRMEM => 4
  | .LUA_ERRGCMM => 5
  | .LUA_ERRERR => 6
  | .LUA_ERRFILE => 7

/-- Status of a call that completed. -/
def LUA_OK : Int := 0

/-- Value of `nresults` that keeps every result. -/
def LUA_MULTRET : Int := -1

/-- What a call of a function does: it returns results (first result first), raises
an error object, or does not come back. Both normal outcomes carry the heap and the
host log as the function left them. -/
inductive CallOutcome
  | returns (results : List LuaValue) (heap : List Table) (zlog : List LogRecord)
  | raises (status : ErrStatus) (errobj : LuaValue) (heap : List Table)
      (zlog : List LogRecord)
  | stop (s : Stop)

/-- A number read from a string: an integer or a float. -/
inductive Numeric
  | int (i : Int)
  | flt (n : lua_Number)
  deriving DecidableEq, Repr

/-- The behaviour of the embedded interpreter that `frrlua.c` relies on and does not
implement. -/
structure Interp where
  /-- running function `fid` on arguments (first argument first) -/
  call : Nat → List LuaValue → lua_State → CallOutcome
  /-- the number a string converts to (`luaO_str2num`), if any -/
  l_str2num : String → Option Numeric
  /-- the text of a float (`lua_Number2str`) -/
  lua_Number2str : lua_Number → String
  /-- the heap after `luaL_openlibs` filled the globals -/
  openlibs : lua_State → List Table
  /-- the status of `luaL_loadfile` on a path (`none` is `LUA_OK`) and the value it
  pushes: the compiled chunk, or the error message -/
  loadfile : String → Option ErrStatus × LuaValue

/-! ## The Lua C API used by `frrlua.c` -/

/-- Position in `L.stack` of the value at stack index `idx`; `none` when the index
is not a valid index of the running frame. -/
def index2addr (L : lua_State) (idx : Int) : Option Nat :=
  if 0 < idx then
    if idx ≤ L.stack.length then some (L.stack.length - idx.toNat) else none
  else if idx < 0 ∧ -idx ≤ L.stack.length then some ((-idx).toNat - 1)
  else none

/-- The value at stack index `idx`. -/
def index2value (L : lua_State) (idx : Int) : Option LuaValue :=
  match index2addr L idx with
  | some pos => L.stack[pos]?
  | none => none

/-- Number of values on the stack. -/
def lua_gettop (L : lua_State) : Int := L.stack.length

/-- Pushes a string. -/
def lua_pushstring (L : lua_State) (s : String) : lua_State :=
  { L with stack := .string s :: L.stack }

/-- Pushes an integer; the argument is converted to `lua_Integer`. -/
def lua_pushinteger (L : lua_State) (n : Int) : lua_State :=
  { L with stack := .integer (c_lua_Integer n) :: L.stack }

/-- Pushes a C function without upvalues. -/
def lua_pushcfunction (L : lua_State) (f : CFunc) : lua_State :=
  { L with stack := .cfunction f :: L.stack }

/-- Creates an empty table and pushes it. -/
def lua_newtable (L : lua_State) : lua_State :=
  { L with stack := .table L.heap.length :: L.stack, heap := L.heap ++ [[]] }

/-- Pops `n` values. -/
def lua_pop (L : lua_State) (n : Nat) : Run lua_State :=
  if n ≤ L.stack.length then .ok { L with stack := L.stack.drop n }
  else .error .undefined

/-- Replaces the key on top of the stack by `t[key]`, where `t` is the value at
`idx`. -/
def lua_gettable (L : lua_State) (idx : Int) : Run lua_State :=
  match L.stack, index2value L idx with
  | k :: rest, some (.table r) =>
    match L.heap[r]? with
    | some t => .ok { L with stack := luaH_get t k :: rest }
    | none => .error .undefined
  | _ :: _, some _ => .error .lua_error
  | _, _ => .error .undefined

/-- Does `t[k] = v`, where `t` is the value at `idx` and `v` the top of the stack,
and pops `v`. -/
def lua_setfield (L : lua_State) (idx : Int) (k : String) : Run lua_State :=
  match L.stack, index2value L idx with
  | v :: rest, some (.table r) =>
    match L.heap[r]? with
    | some t => .ok { L with stack := rest, heap := L.heap.set r (luaH_set t (.string k) v) }
    | none => .error .undefined
  | _ :: _, some _ => .error .lua_error
  | _, _ => .error .undefined

/-- Pushes the value of the global `name`. -/
def lua_getglobal (L : lua_State) (name : String) : Run lua_State :=
  match L.heap[L.globals]? with
  | some g => .ok { L with stack := luaH_get g (.string name) :: L.stack }
  | none => .error .undefined

/-- Pops a value and binds the global `name` to it. -/
def lua_setglobal (L : lua_State) (name : String) : Run lua_State :=
  match L.stack, L.heap[L.globals]? with
  | v :: rest, some g =>
    .ok { L with stack := rest, heap := L.heap.set L.globals (luaH_set g (.string name) v) }
  | _, _ => .error .undefined

/-- The value converted to a C string (`lua_tolstring` without length): a string is
returned as it is, a number is replaced in the stack by its text, anything else
gives NULL. -/
def lua_tostring (I : Interp) (L : lua_State) (idx : Int) : Run (Option String × lua_State) :=
  match index2addr L idx with
  | none => .error .undefined
  | some pos =>
    match L.stack[pos]? with
    | some (.string s) => .ok (some s, L)
    | some (.integer i) =>
      .ok (some (toString i), { L with stack := L.stack.set pos (.string (toString i)) })
    | some (.number n) =>
      .ok (some (I.lua_Number2str n),
        { L with stack := L.stack.set pos (.string (I.lua_Number2str n)) })
    | some _ => .ok (none, L)
    | none => .error .undefined

/-- The integer a value converts to (`luaV_tointeger`, mode 0), if any. -/
def luaV_tointeger (I : Interp) : LuaValue → Option Int
  | .integer i => some i
  | .number n => luaV_flttoint n
  | .string s =>
    match I.l_str2num s with
    | some (.int i) => some i
    | some (.flt n) => luaV_flttoint n
    | none => none
  | _ => none

/-- The float a value converts to (`luaV_tonumber_`), if any. -/
def luaV_tonumber (I : Interp) : LuaValue → Option lua_Number
  | .integer i => some (cast_num i)
  | .number n => some n
  | .string s =>
    match I.l_str2num s with
    | some (.int i) => some (cast_num i)
    | some (.flt n) => some n
    | none => none
  | _ => none

/-- The value at `idx` as a `lua_Integer`, 0 when it does not convert. -/
def lua_tointeger (I : Interp) (L : lua_State) (idx : Int) : Run Int :=
  match index2value L idx with
  | some v => .ok ((luaV_tointeger I v).getD 0)
  | none => .error .undefined

/-- The value at `idx` as a `lua_Number`, 0 when it does not convert. -/
def lua_tonumber (I : Interp) (L : lua_State) (idx : Int) : Run lua_Number :=
  match index2value L idx with
  | some v => .ok ((luaV_tonumber I v).getD (.finite 0))
  | none => .error .undefined

/-- Registers each function of `l` in the table on top of the stack (`nup = 0`). -/
def luaL_setfuncs (L : lua_State) : List (String × CFunc) → Run lua_State
  | [] => .ok L
  | (name, f) :: l => do
    let L ← lua_setfield (lua_pushcfunction L f) (-2) name
    luaL_setfuncs L l

/-- Closes the state. -/
def lua_close (L : lua_State) : lua_State :=
  { L with stack := [], heap := [], closed := true }

/-- A new state: empty stack, an empty globals table. -/
def lua_newstate (zlog : List LogRecord) : lua_State :=
  { stack := [], heap := [[]], globals := 0, zlog := zlog, closed := false }

/-- Opens the standard libraries. -/
def luaL_openlibs (I : Interp) (L : lua_State) : lua_State :=
  { L with heap := I.openlibs L }

/-- Loads a file as a chunk: pushes the chunk or the error message and gives the
status. -/
def luaL_loadfile (I : Interp) (L : lua_State) (file : String) : Int × lua_State :=
  match I.loadfile file with
  | (none, chunk) => (LUA_OK, { L with stack := chunk :: L.stack })
  | (some e, msg) => (e.code, { L with stack := msg :: L.stack })

/-- Exactly `nresults` results, or all of them for `LUA_MULTRET`: missing ones are
`nil`, extra ones are dropped. -/
def adjust_results (nresults : Int) (rs : List LuaValue) : List LuaValue :=
  if nresults = LUA_MULTRET then rs
  else rs.take nresults.toNat ++ List.replicate (nresults.toNat - rs.length) .nil

/-! ## Host declarations -/

/-- The host's `struct prefix`: the address family (`uint8_t family`), which the
encoder reads, and the rest of the value, which only `prefix2str` reads. -/
structure Prefix where
  family : Nat
  prefixlen : Nat
  u : List Nat
  deriving DecidableEq, Repr

/-- The fields of the host's `struct interface` that the encoder reads, with their C
types: `name` a C string, `ifindex` and `link_ifindex` an `ifindex_t` (signed int),
`status` a `uint8_t`, `flags` a `uint64_t`, `metric` and `speed` a `uint32_t`, `mtu`,
`mtu6` and `bandwidth` an `unsigned int`, `ll_type` an enumeration. -/
structure Interface where
  name : String
  ifindex : Int
  status : Nat
  flags : Nat
  metric : Nat
  speed : Nat
  mtu : Nat
  mtu6 : Nat
  bandwidth : Nat
  link_ifindex : Int
  ll_type : Nat
  deriving DecidableEq, Repr

/-- Every field holds a value of its C type. -/
def Interface.wf (ifp : Interface) : Prop :=
  fitsInt ifp.ifindex ∧ ifp.status < 2 ^ 8 ∧ ifp.flags < 2 ^ 64 ∧ ifp.metric < 2 ^ 32 ∧
  ifp.speed < 2 ^ 32 ∧ ifp.mtu < 2 ^ 32 ∧ ifp.mtu6 < 2 ^ 32 ∧ ifp.bandwidth < 2 ^ 32 ∧
  fitsInt ifp.link_ifindex ∧ ifp.ll_type < 2 ^ 32

instance (ifp : Interface) : Decidable ifp.wf :=
  inferInstanceAs (Decidable (fitsInt ifp.ifindex ∧ ifp.status < 2 ^ 8 ∧ ifp.flags < 2 ^ 64 ∧
    ifp.metric < 2 ^ 32 ∧ ifp.speed < 2 ^ 32 ∧ ifp.mtu < 2 ^ 32 ∧ ifp.mtu6 < 2 ^ 32 ∧
    ifp.bandwidth < 2 ^ 32 ∧ fitsInt ifp.link_ifindex ∧ ifp.ll_type < 2 ^ 32))

/-- What `frrlua.c` takes from host headers that are not part of this file. -/
structure Host where
  /-- the enumerator `LUA_RM_FAILURE` of `enum frrlua_rm_status` (`frrlua.h`) -/
  LUA_RM_FAILURE : Int
  /-- the text `prefix2str` writes into a buffer of the given size (`prefix.h`) -/
  prefix2str : Prefix → Nat → String

/-- A state as the interpreter keeps it: live, with its globals table in the heap. -/
def lua_State.wf (L : lua_State) : Prop :=
  L.globals < L.heap.length ∧ L.closed = false

instance (L : lua_State) : Decidable L.wf :=
  inferInstanceAs (Decidable (L.globals < L.heap.length ∧ L.closed = false))

/-- The value bound to a global name (`nil` when unbound). -/
def lua_State.global (L : lua_State) (name : String) : LuaValue :=
  match L.heap[L.globals]? with
  | some g => luaH_get g (.string name)
  | none => .nil

/-- Emits one record to the host log. -/
def zlog (L : lua_State) (sev : Severity) (msg : Option String) : lua_State :=
  { L with zlog := L.zlog ++ [⟨sev, msg⟩] }

/-- The host sink of debug severity. -/
def zlog_debug (L : lua_State) (msg : Option String) : lua_State := zlog L .debug msg

/-- The host sink of info severity. -/
def zlog_info (L : lua_State) (msg : Option String) : lua_State := zlog L .info msg

/-- The host sink of notice severity. -/
def zlog_notice (L : lua_State) (msg : Option String) : lua_State := zlog L .notice msg

/-- The host sink of warning severity. -/
def zlog_warn (L : lua_State) (msg : Option String) : lua_State := zlog L .warn msg

/-- The host sink of error severity. -/
def zlog_err (L : lua_State) (msg : Option String) : lua_State := zlog L .err msg

/-! ## `frrlua.c`: convenience functions -/

/-- Field `key` of the table on top of the stack, as a C string. -/
def frrlua_table_get_string (I : Interp) (L : lua_State) (key : String) :
    Run (Option String × lua_State) := do
  let L := lua_pushstring L key
  let L ← lua_gettable L (-2)
  let (str, L) ← lua_tostring I L (-1)
  let L ← lua_pop L 1
  return (str, L)

/-- Field `key` of the table on top of the stack, as a C `int`. -/
def frrlua_table_get_integer (I : Interp) (L : lua_State) (key : String) :
    Run (Int × lua_State) := do
  let L := lua_pushstring L key
  let L ← lua_gettable L (-2)
  let result := c_int (← lua_tointeger I L (-1))
  let L ← lua_pop L 1
  return (result, L)

/-! ## `frrlua.c`: encoders -/

/-- Encoder of a host prefix. -/
def frrlua_newtable_prefix (H : Host) (L : lua_State) (p : Prefix) : Run lua_State := do
  let L := zlog_debug L (some "frrlua: pushing prefix table")
  let L := lua_newtable L
  let L := lua_pushstring L (H.prefix2str p 100)
  let L ← lua_setfield L (-2) "route"
  let L := lua_pushinteger L p.family
  let L ← lua_setfield L (-2) "family"
  lua_setglobal L "prefix"

/-- Encoder of a host interface. -/
def frrlua_newtable_interface (L : lua_State) (ifp : Interface) : Run lua_State := do
  let L := zlog_debug L (some "frrlua: pushing interface table")
  let L := lua_newtable L
  let L := lua_pushstring L ifp.name
  let L ← lua_setfield L (-2) "name"
  let L := lua_pushinteger L ifp.ifindex
  let L ← lua_setfield L (-2) "ifindex"
  let L := lua_pushinteger L ifp.status
  let L ← lua_setfield L (-2) "status"
  let L := lua_pushinteger L ifp.flags
  let L ← lua_setfield L (-2) "flags"
  let L := lua_pushinteger L ifp.metric
  let L ← lua_setfield L (-2) "metric"
  let L := lua_pushinteger L ifp.speed
  let L ← lua_setfield L (-2) "speed"
  let L := lua_pushinteger L ifp.mtu
  let L ← lua_setfield L (-2) "mtu"
  let L := lua_pushinteger L ifp.mtu6
  let L ← lua_setfield L (-2) "mtu6"
  let L := lua_pushinteger L ifp.bandwidth
  let L ← lua_setfield L (-2) "bandwidth"
  let L := lua_pushinteger L ifp.link_ifindex
  let L ← lua_setfield L (-2) "link_ifindex"
  let L := lua_pushinteger L ifp.ll_type
  lua_setfield L (-2) "linklayer_type"

/-! ## `frrlua.c`: logging -/

/-- The single argument of a logging call, as a C string. -/
def frrlua_log_thunk (I : Interp) (L : lua_State) : Run (Option String × lua_State) :=
  let nargs := lua_gettop L
  if nargs = 1 then lua_tostring I L 1 else .error .assertion

/-- Lua-callable wrapper of `zlog_debug`. -/
def frrlua_log_debug (I : Interp) (L : lua_State) : Run (Int × lua_State) := do
  let (s, L) ← frrlua_log_thunk I L
  return (0, zlog_debug L s)

/-- Lua-callable wrapper of `zlog_info`. -/
def frrlua_log_info (I : Interp) (L : lua_State) : Run (Int × lua_State) := do
  let (s, L) ← frrlua_log_thunk I L
  return (0, zlog_info L s)

/-- Lua-callable wrapper of `zlog_notice`. -/
def frrlua_log_notice (I : Interp) (L : lua_State) : Run (Int × lua_State) := do
  let (s, L) ← frrlua_log_thunk I L
  return (0, zlog_notice L s)

/-- Lua-callable wrapper of `zlog_warn`. -/
def frrlua_log_warn (I : Interp) (L : lua_State) : Run (Int × lua_State) := do
  let (s, L) ← frrlua_log_thunk I L
  return (0, zlog_warn L s)

/-- Lua-callable wrapper of `zlog_err`. -/
def frrlua_log_error (I : Interp) (L : lua_State) : Run (Int × lua_State) := do
  let (s, L) ← frrlua_log_thunk I L
  return (0, zlog_err L s)

/-- The registration array `log_funcs`, without its terminating empty entry. -/
def log_funcs : List (String × CFunc) :=
  [("debug", .frrlua_log_debug), ("info", .frrlua_log_info),
   ("notice", .frrlua_log_notice), ("warn", .frrlua_log_warn),
   ("error", .frrlua_log_error)]

/-- Registration of the logging functions. -/
def frrlua_export_logging (L : lua_State) : Run lua_State := do
  let L := lua_newtable L
  let L ← luaL_setfuncs L log_funcs
  lua_setfield L (-2) "log"

/-! ## Calls -/

/-- The code behind a registered C function. -/
def runCFunc (I : Interp) : CFunc → lua_State → Run (Int × lua_State)
  | .frrlua_log_debug => frrlua_log_debug I
  | .frrlua_log_info => frrlua_log_info I
  | .frrlua_log_notice => frrlua_log_notice I
  | .frrlua_log_warn => frrlua_log_warn I
  | .frrlua_log_error => frrlua_log_error I

/-- Call of `f` on `args` (first argument first) in a frame of its own: a script or
library function is run by the interpreter, a C function of this file by its code (its
results are the topmost values of its frame, as many as it returns), and calling
anything else raises a runtime error. -/
def luaD_call (I : Interp) (L : lua_State) (f : LuaValue) (args : List LuaValue) :
    CallOutcome :=
  match f with
  | .closure fid => I.call fid args { L with stack := args.reverse }
  | .cfunction c =>
    match runCFunc I c { L with stack := args.reverse } with
    | .ok (n, L') => .returns (L'.stack.take n.toNat).reverse L'.heap L'.zlog
    | .error s => .stop s
  | v =>
    .raises .LUA_ERRRUN (.string ("attempt to call a " ++ v.typename ++ " value"))
      L.heap L.zlog

/-- Protected call without message handler (`msgh = 0`, as at both call sites): the
function lies below its `nargs` arguments; function and arguments are replaced by the
adjusted results, or by the error object. -/
def lua_pcall (I : Interp) (L : lua_State) (nargs : Nat) (nresults : Int) :
    Run (Int × lua_State) :=
  match L.stack[nargs]? with
  | none => .error .undefined
  | some f =>
    let args := (L.stack.take nargs).reverse
    let rest := L.stack.drop (nargs + 1)
    match luaD_call I L f args with
    | .returns rs heap zlog =>
      .ok (LUA_OK,
        { L with stack := (adjust_results nresults rs).reverse ++ rest, heap := heap,
                 zlog := zlog })
    | .raises e err heap zlog =>
      .ok (e.code, { L with stack := err :: rest, heap := heap, zlog := zlog })
    | .stop s => .error s

/-! ## `frrlua.c`: rule execution -/

/-- Runs the global function `rule` and gives its numeric result as status. -/
def frrlua_run_rm_rule (H : Host) (I : Interp) (L : lua_State) (rule : String) :
    Run (Int × lua_State) := do
  let L ← lua_getglobal L rule
  let (status, L) ← lua_pcall I L 0 1
  if status ≠ 0 then
    let L := zlog_debug L
      (some ("Executing Failure with function: " ++ rule ++ ": " ++ toString status))
    return (H.LUA_RM_FAILURE, L)
  else
    match double2int (← lua_tonumber I L (-1)) with
    | some status => return (status, L)
    | none => .error .undefined

/-- The state after running the rules of a list one after the other. -/
def run_rules (H : Host) (I : Interp) (L : lua_State) : List String → Run lua_State
  | [] => .ok L
  | rule :: rules => do
    let (_, L) ← frrlua_run_rm_rule H I L rule
    run_rules H I L rules

/-! ## `frrlua.c`: initialization -/

/-- What `frrlua_initialize` leaves: the handle it returns (`none` is NULL) and the
interpreter state it created, as it is on return. -/
structure InitResult where
  handle : Option lua_State
  state : lua_State
  deriving DecidableEq, Repr

/-- Creates a state and runs the script `file` in it, if one is given. `alloc_ok`
tells whether `lua_newstate` could allocate the state; `zlog0` is the host log so
far. -/
def frrlua_initialize (I : Interp) (zlog0 : List LogRecord) (alloc_ok : Bool)
    (file : Option String) : Run InitResult :=
  if alloc_ok = false then .error .undefined
  else
    let L := lua_newstate zlog0
    let L := luaL_openlibs I L
    match file with
    | some file =>
      let (status, L) := luaL_loadfile I L file
      if status ≠ 0 then
        let L := zlog_debug L
          (some ("Failure to open " ++ file ++ " " ++ toString status))
        let L := lua_close L
        .ok ⟨none, L⟩
      else do
        let (_, L) ← lua_pcall I L 0 LUA_MULTRET
        return ⟨some L, L⟩
    | none => .ok ⟨some L, L⟩

/-! ## Concrete data -/

/-- An interpreter with four script functions: function 0 returns the integer 1,
function 1 raises a runtime error, function 2 returns the integer -1, function 3
returns a string; every other function does not terminate. No string converts to a
number; the file `ok.lua` loads as function 0, `err.lua` loads as function 1, no other
file loads. -/
def demoInterp : Interp where
  call := fun fid _ L =>
    match fid with
    | 0 => .returns [.integer 1] L.heap L.zlog
    | 1 => .raises .LUA_ERRRUN (.string "boom") L.heap L.zlog
    | 2 => .returns [.integer (-1)] L.heap L.zlog
    | 3 => .returns [.string "abc"] L.heap L.zlog
    | _ => .stop .hang
  l_str2num := fun _ => none
  lua_Number2str := fun _ => "0.0"
  openlibs := fun L => L.heap
  loadfile := fun f =>
    if f = "ok.lua" then (none, .closure 0)
    else if f = "err.lua" then (none, .closure 1)
    else (some .LUA_ERRFILE, .string "cannot open")

/-- A host whose `LUA_RM_FAILURE` is 0 and whose prefixes print as their family. -/
def demoHost : Host := ⟨0, fun p _ => toString p.family⟩

/-- A state with an empty stack whose globals bind `accept` to function 0, `bad` to
function 1, `deny` to function 2 and `odd` to function 3. -/
def demoState : lua_State :=
  { stack := []
    heap := [[(.string "accept", .closure 0), (.string "bad", .closure 1),
              (.string "deny", .closure 2), (.string "odd", .closure 3)]]
    globals := 0
    zlog := []
    closed := false }

/-- An interface whose flags need 33 bits. -/
def demoInterface : Interface :=
  { name := "eth0", ifindex := 3, status := 1, flags := 2 ^ 32, metric := 10,
    speed := 1000, mtu := 1500, mtu6 := 1500, bandwidth := 0, link_ifindex := 0,
    ll_type := 1 }

/-- The table the interface encoder builds. -/
def interfaceTable (ifp : Interface) : Table :=
  [(.string "linklayer_type", .integer (c_lua_Integer ifp.ll_type)),
   (.string "link_ifindex", .integer (c_lua_Integer ifp.link_ifindex)),
   (.string "bandwidth", .integer (c_lua_Integer ifp.bandwidth)),
   (.string "mtu6", .integer (c_lua_Integer ifp.mtu6)),
   (.string "mtu", .integer (c_lua_Integer ifp.mtu)),
   (.string "speed", .integer (c_lua_Integer ifp.speed)),
   (.string "metric", .integer (c_lua_Integer ifp.metric)),
   (.string "flags", .integer (c_lua_Integer ifp.flags)),
   (.string "status", .integer (c_lua_Integer ifp.status)),
   (.string "ifindex", .integer (c_lua_Integer ifp.ifindex)),
   (.string "name", .string ifp.name)]

/-- A state whose stack holds one table, empty and distinct from the globals table. -/
def demoStateWithTable : lua_State :=
  { demoState with stack := [.table 1], heap := demoState.heap ++ [[]] }

/-- The status and state `frrlua_run_rm_rule` gives once the call of the global came
back; used to state `run_rm_rule_eq`. -/
def rmRuleResult (H : Host) (I : Interp) (L : lua_State) (rule : String) :
    CallOutcome → Run (Int × lua_State)
  | .returns rs heap zl =>
    match double2int ((luaV_tonumber I (rs.headD .nil)).getD (.finite 0)) with
    | some n => .ok (n, { L with stack := rs.headD .nil :: L.stack, heap := heap, zlog := zl })
    | none => .error .undefined
  | .raises e err heap zl =>
    .ok (H.LUA_RM_FAILURE,
      { L with stack := err :: L.stack, heap := heap,
               zlog := zl ++ [⟨.debug, some ("Executing Failure with function: " ++ rule ++
                 ": " ++ toString e.code)⟩] })
  | .stop s => .error s

/-- The result of `frrlua_initialize` on a file that loads, once the run of its chunk
came back; used to state `initialize_loaded`. -/
def loadedResult (L0 : lua_State) : CallOutcome → Run InitResult
  | .returns rs heap zl =>
    .ok ⟨some { L0 with stack := rs.reverse ++ L0.stack, heap := heap, zlog := zl },
      { L0 with stack := rs.reverse ++ L0.stack, heap := heap, zlog := zl }⟩
  | .raises _ err heap zl =>
    .ok ⟨some { L0 with stack := err :: L0.stack, heap := heap, zlog := zl },
      { L0 with stack := err :: L0.stack, heap := heap, zlog := zl }⟩
  | .stop s => .error s

/-! ## Stack and table lemmas -/

theorem index2addr_top (a : LuaValue) (rest : List LuaValue) (h : List Table) (g : Nat)
    (z : List LogRecord) (c : Bool) :
    index2addr ⟨a :: rest, h, g, z, c⟩ (-1) = some 0 := by
  have h1 : ¬ (0 : Int) < -1 := by decide
  have h2 : (-1 : Int) < 0 ∧ -(-1 : Int) ≤ ((a :: rest).length : Int) := by
    refine ⟨by decide, ?_⟩
    simp only [List.length_cons]
    omega
  simp only [index2addr, if_neg h1, if_pos h2]
  rfl

theorem index2addr_second (a b : LuaValue) (rest : List LuaValue) (h : List Table) (g : Nat)
    (z : List LogRecord) (c : Bool) :
    index2addr ⟨a :: b :: rest, h, g, z, c⟩ (-2) = some 1 := by
  have h1 : ¬ (0 : Int) < -2 := by decide
  have h2 : (-2 : Int) < 0 ∧ -(-2 : Int) ≤ ((a :: b :: rest).length : Int) := by
    refine ⟨by decide, ?_⟩
    simp only [List.length_cons]
    omega
  simp only [index2addr, if_neg h1, if_pos h2]
  rfl

theorem index2value_top (a : LuaValue) (rest : List LuaValue) (h : List Table) (g : Nat)
    (z : List LogRecord) (c : Bool) :
    index2value ⟨a :: rest, h, g, z, c⟩ (-1) = some a := by
  simp [index2value, index2addr_top]

theorem index2value_second (a b : LuaValue) (rest : List LuaValue) (h : List Table)
    (g : Nat) (z : List LogRecord) (c : Bool) :
    index2value ⟨a :: b :: rest, h, g, z, c⟩ (-2) = some b := by
  simp [index2value, index2addr_second]

theorem lua_pop_one (a : LuaValue) (rest : List LuaValue) (h : List Table) (g : Nat)
    (z : List LogRecord) (c : Bool) :
    lua_pop ⟨a :: rest, h, g, z, c⟩ 1 = .ok ⟨rest, h, g, z, c⟩ := by
  simp [lua_pop]

theorem luaH_get_absent (t : Table) (k : String) (h : ∀ v, (LuaValue.string k, v) ∉ t) :
    luaH_get t (.string k) = .nil := by
  unfold luaH_get
  have : t.find? (fun e => decide (e.1 = normKey (.string k))) = none := by
    rw [List.find?_eq_none]
    intro e he
    simp only [normKey, decide_eq_true_eq]
    intro hk
    exact h e.2 (by rw [← hk]; exact he)
  rw [this]

theorem lua_setfield_new (v : LuaValue) (rest : List LuaValue) (h : List Table) (t : Table)
    (k : String) (g : Nat) (z : List LogRecord) (c : Bool) :
    lua_setfield ⟨v :: .table h.length :: rest, h ++ [t], g, z, c⟩ (-2) k =
      .ok ⟨.table h.length :: rest, h ++ [luaH_set t (.string k) v], g, z, c⟩ := by
  simp [lua_setfield, index2value_second]

/-- Reading a field that holds a string, with the table on top of the stack. -/
theorem table_get_string_of_string (I : Interp) (r : Nat) (rest : List LuaValue)
    (h : List Table) (g : Nat) (z : List LogRecord) (c : Bool) (t : Table)
    (key s : String) (ht : h[r]? = some t) (hv : luaH_get t (.string key) = .string s) :
    frrlua_table_get_string I ⟨.table r :: rest, h, g, z, c⟩ key =
      .ok (some s, ⟨.table r :: rest, h, g, z, c⟩) := by
  simp [frrlua_table_get_string, lua_pushstring, lua_gettable, index2value_second, ht, hv,
    lua_tostring, index2addr_top, lua_pop_one, bind, Except.bind, pure, Except.pure]

/-- Reading a field that holds an integer, with the table on top of the stack. -/
theorem table_get_integer_of_integer (I : Interp) (r : Nat) (rest : List LuaValue)
    (h : List Table) (g : Nat) (z : List LogRecord) (c : Bool) (t : Table)
    (key : String) (i : Int) (ht : h[r]? = some t)
    (hv : luaH_get t (.string key) = .integer i) :
    frrlua_table_get_integer I ⟨.table r :: rest, h, g, z, c⟩ key =
      .ok (c_int i, ⟨.table r :: rest, h, g, z, c⟩) := by
  simp [frrlua_table_get_integer, lua_pushstring, lua_gettable, index2value_second, ht, hv,
    lua_tointeger, index2value_top, luaV_tointeger, lua_pop_one, bind, Except.bind, pure,
    Except.pure]

/-- The interface encoder, computed: it logs, allocates one table, fills it and leaves
it on top of the stack. -/
theorem newtable_interface_eq (L : lua_State) (ifp : Interface) :
    frrlua_newtable_interface L ifp =
      .ok ⟨.table L.heap.length :: L.stack, L.heap ++ [interfaceTable ifp], L.globals,
        L.zlog ++ [⟨.debug, some "frrlua: pushing interface table"⟩], L.closed⟩ := by
  obtain ⟨s, h, g, z, c⟩ := L
  simp [frrlua_newtable_interface, zlog, zlog_debug, lua_newtable, lua_pushstring, lua_pushinteger,
    lua_setfield_new, bind, Except.bind, luaH_set, normKey, interfaceTable]

theorem c_int_of_fits (x : Int) (h : fitsInt x) : c_int x = x := by
  unfold fitsInt at h
  unfold c_int wrapSigned
  norm_num at h ⊢
  omega

theorem c_int_c_lua_Integer (x : Int) : c_int (c_lua_Integer x) = c_int x := by
  unfold c_int c_lua_Integer wrapSigned
  norm_num
  omega

/-! ## Stack accessors (C3) -/

/-- C3: with a table on top of the stack and a key that the table does not hold,
`frrlua_table_get_string` returns NULL and `frrlua_table_get_integer` returns 0, and
both return the state they were given, so the stack has the depth it had. -/
theorem table_get_absent (I : Interp) (L : lua_State) (key : String) (r : Nat)
    (rest : List LuaValue) (t : Table)
    (hs : L.stack = .table r :: rest) (ht : L.heap[r]? = some t)
    (habs : ∀ v, (LuaValue.string key, v) ∉ t) :
    frrlua_table_get_string I L key = .ok (none, L) ∧
    frrlua_table_get_integer I L key = .ok (0, L) := by
  obtain ⟨s, h, g, z, c⟩ := L
  simp only at hs ht
  subst hs
  have hg := luaH_get_absent t key habs
  constructor
  · simp [frrlua_table_get_string, lua_pushstring, lua_gettable, index2value_second, ht, hg,
      lua_tostring, index2addr_top, lua_pop_one, bind, Except.bind, pure, Except.pure]
  · simp [frrlua_table_get_integer, lua_pushstring, lua_gettable, index2value_second, ht, hg,
      lua_tointeger, index2value_top, luaV_tointeger, lua_pop_one, bind, Except.bind, pure,
      Except.pure, c_int, wrapSigned]

/-- C3 at a concrete state: the globals table of `demoState`, put on top of the stack,
has no key `missing`. -/
theorem table_get_absent_witness :
    frrlua_table_get_string demoInterp { demoState with stack := [.table 0] } "missing" =
      .ok (none, { demoState with stack := [.table 0] }) ∧
    frrlua_table_get_integer demoInterp { demoState with stack := [.table 0] } "missing" =
      .ok (0, { demoState with stack := [.table 0] }) :=
  table_get_absent demoInterp { demoState with stack := [.table 0] } "missing" 0 []
    [(.string "accept", .closure 0), (.string "bad", .closure 1),
     (.string "deny", .closure 2), (.string "odd", .closure 3)]
    rfl rfl (by intro v; simp)

/-! ## Interface encoder: stack depth (C4) and read-back (C6) -/

theorem heap_new_get (h : List Table) (t : Table) : (h ++ [t])[h.length]? = some t := by
  simp

/-- C4: on every state and every interface `frrlua_newtable_interface` returns with
the table it built on top of the stack it was given: the stack is one value deeper
than before the call, not as deep as before. -/
theorem newtable_interface_grows_stack (L : lua_State) (ifp : Interface) :
    ∃ L', frrlua_newtable_interface L ifp = .ok L' ∧
      L'.stack = .table L.heap.length :: L.stack ∧
      L'.stack.length = L.stack.length + 1 ∧ L'.globals = L.globals := by
  exact ⟨_, newtable_interface_eq L ifp, rfl, by simp, rfl⟩

/-- C6 fails as stated: the interface `demoInterface` has `flags = 2 ^ 32`, a value of
its 64-bit field, and reading `flags` back from the encoded table gives 0. -/
theorem interface_flags_truncated :
    demoInterface.wf ∧
    ∃ L', frrlua_newtable_interface demoState demoInterface = .ok L' ∧
      frrlua_table_get_integer demoInterp L' "flags" = .ok (0, L') ∧
      (0 : Int) ≠ demoInterface.flags := by
  refine ⟨by decide, _, newtable_interface_eq _ _, ?_, by decide⟩
  have h := table_get_integer_of_integer demoInterp demoState.heap.length demoState.stack
    (demoState.heap ++ [interfaceTable demoInterface]) demoState.globals
    (demoState.zlog ++ [⟨.debug, some "frrlua: pushing interface table"⟩]) demoState.closed
    (interfaceTable demoInterface) "flags" (c_lua_Integer demoInterface.flags)
    (heap_new_get _ _) (by simp [interfaceTable, luaH_get, normKey])
  have hc : c_int (c_lua_Integer demoInterface.flags) = 0 := by decide
  rw [hc] at h
  exact h

/-- C6, amended: for every interface whose fields hold values of their C types, the
encoder returns a state in which every accessor call returns that same state, `name`
reads back as the name, `ifindex`, `status` and `link_ifindex` read back unchanged, and
every other integer field reads back as its value converted to C `int`, which is the
value itself whenever the value is a value of `int`. -/
theorem interface_roundtrip (I : Interp) (L : lua_State) (ifp : Interface) (hwf : ifp.wf) :
    ∃ L', frrlua_newtable_interface L ifp = .ok L' ∧
      frrlua_table_get_string I L' "name" = .ok (some ifp.name, L') ∧
      frrlua_table_get_integer I L' "ifindex" = .ok (ifp.ifindex, L') ∧
      frrlua_table_get_integer I L' "status" = .ok (ifp.status, L') ∧
      frrlua_table_get_integer I L' "flags" = .ok (c_int ifp.flags, L') ∧
      frrlua_table_get_integer I L' "metric" = .ok (c_int ifp.metric, L') ∧
      frrlua_table_get_integer I L' "speed" = .ok (c_int ifp.speed, L') ∧
      frrlua_table_get_integer I L' "mtu" = .ok (c_int ifp.mtu, L') ∧
      frrlua_table_get_integer I L' "mtu6" = .ok (c_int ifp.mtu6, L') ∧
      frrlua_table_get_integer I L' "bandwidth" = .ok (c_int ifp.bandwidth, L') ∧
      frrlua_table_get_integer I L' "link_ifindex" = .ok (ifp.link_ifindex, L') ∧
      frrlua_table_get_integer I L' "linklayer_type" = .ok (c_int ifp.ll_type, L') ∧
      ∀ x : Int, fitsInt x → c_int x = x := by
  obtain ⟨hidx, hst, -, -, -, -, -, -, hlidx, -⟩ := hwf
  have hget : ∀ (key : String) (x : Int),
      luaH_get (interfaceTable ifp) (.string key) = .integer (c_lua_Integer x) →
      frrlua_table_get_integer I
        ⟨.table L.heap.length :: L.stack, L.heap ++ [interfaceTable ifp], L.globals,
          L.zlog ++ [⟨.debug, some "frrlua: pushing interface table"⟩], L.closed⟩ key =
        .ok (c_int x, ⟨.table L.heap.length :: L.stack, L.heap ++ [interfaceTable ifp],
          L.globals, L.zlog ++ [⟨.debug, some "frrlua: pushing interface table"⟩],
          L.closed⟩) := by
    intro key x hv
    rw [← c_int_c_lua_Integer x]
    exact table_get_integer_of_integer I _ _ _ _ _ _ _ key _ (heap_new_get _ _) hv
  have hstatus : fitsInt (ifp.status : Int) := by
    unfold fitsInt; norm_num at hst ⊢; omega
  refine ⟨_, newtable_interface_eq L ifp, ?_, ?_, ?_, ?_, ?_, ?_, ?_, ?_, ?_, ?_, ?_,
    c_int_of_fits⟩
  · exact table_get_string_of_string I _ _ _ _ _ _ _ "name" _ (heap_new_get _ _)
      (by simp [interfaceTable, luaH_get, normKey])
  · have := hget "ifindex" ifp.ifindex (by simp [interfaceTable, luaH_get, normKey])
    rwa [c_int_of_fits _ hidx] at this
  · have := hget "status" ifp.status (by simp [interfaceTable, luaH_get, normKey])
    rwa [c_int_of_fits _ hstatus] at this
  · exact hget "flags" ifp.flags (by simp [interfaceTable, luaH_get, normKey])
  · exact hget "metric" ifp.metric (by simp [interfaceTable, luaH_get, normKey])
  · exact hget "speed" ifp.speed (by simp [interfaceTable, luaH_get, normKey])
  · exact hget "mtu" ifp.mtu (by simp [interfaceTable, luaH_get, normKey])
  · exact hget "mtu6" ifp.mtu6 (by simp [interfaceTable, luaH_get, normKey])
  · exact hget "bandwidth" ifp.bandwidth (by simp [interfaceTable, luaH_get, normKey])
  · have := hget "link_ifindex" ifp.link_ifindex
      (by simp [interfaceTable, luaH_get, normKey])
    rwa [c_int_of_fits _ hlidx] at this
  · exact hget "linklayer_type" ifp.ll_type (by simp [interfaceTable, luaH_get, normKey])

/-- C6, amended, at `demoInterface`: its name and its metric (10, a value of `int`)
read back unchanged. -/
theorem interface_roundtrip_witness :
    demoInterface.wf ∧
    ∃ L', frrlua_newtable_interface demoState demoInterface = .ok L' ∧
      frrlua_table_get_string demoInterp L' "name" = .ok (some "eth0", L') ∧
      frrlua_table_get_integer demoInterp L' "metric" = .ok (c_int 10, L') := by
  obtain ⟨L', h1, h2, -, -, -, h3, -⟩ :=
    interface_roundtrip demoInterp demoState demoInterface (by decide)
  exact ⟨by decide, L', h1, h2, h3⟩

/-! ## Prefix encoder (C5) -/

theorem luaH_get_set_same (t : Table) (k : String) (v : LuaValue) (hv : v ≠ .nil) :
    luaH_get (luaH_set t (.string k) v) (.string k) = v := by
  simp [luaH_get, luaH_set, normKey, hv]

theorem luaH_get_set_other (t : Table) (k k' : String) (v : LuaValue) (hk : k' ≠ k) :
    luaH_get (luaH_set t (.string k) v) (.string k') = luaH_get t (.string k') := by
  have hfilter : (t.filter (fun e => decide (e.1 ≠ LuaValue.string k))).find?
      (fun e => decide (e.1 = LuaValue.string k')) =
      t.find? (fun e => decide (e.1 = LuaValue.string k')) := by
    induction t with
    | nil => rfl
    | cons e t ih =>
      by_cases h1 : e.1 = LuaValue.string k'
      · have h2 : e.1 ≠ LuaValue.string k := by
          rw [h1]; intro h; exact hk (LuaValue.string.inj h)
        rw [List.filter_cons_of_pos (by simpa using h2),
          List.find?_cons_of_pos _ (by simpa using h1),
          List.find?_cons_of_pos _ (by simpa using h1)]
      · by_cases h2 : e.1 = LuaValue.string k
        · rw [List.filter_cons_of_neg (by simpa using h2),
            List.find?_cons_of_neg _ (by simpa using h1), ih]
        · rw [List.filter_cons_of_pos (by simpa using h2),
            List.find?_cons_of_neg _ (by simpa using h1),
            List.find?_cons_of_neg _ (by simpa using h1), ih]
  have hne : ¬ (LuaValue.string k = LuaValue.string k') := by
    intro h; exact hk (LuaValue.string.inj h).symm
  unfold luaH_get luaH_set
  by_cases hv : v = .nil
  · simp only [normKey, hv, if_true]
    rw [hfilter]
  · simp only [normKey, hv, if_false, List.find?_cons, hne, decide_False]
    rw [hfilter]

theorem c_lua_Integer_of_small (n : Nat) (h : n < 2 ^ 8) : c_lua_Integer n = n := by
  unfold c_lua_Integer wrapSigned
  norm_num at h ⊢
  omega

theorem newtable_prefix_eq (H : Host) (s : List LuaValue) (h : List Table) (g : Nat)
    (z : List LogRecord) (c : Bool) (p : Prefix) (G : Table) (hG : h[g]? = some G) :
    frrlua_newtable_prefix H ⟨s, h, g, z, c⟩ p =
      .ok ⟨s, h.set g (luaH_set G (.string "prefix") (.table h.length)) ++
          [[(.string "family", .integer (c_lua_Integer p.family)),
            (.string "route", .string (H.prefix2str p 100))]], g,
        z ++ [⟨.debug, some "frrlua: pushing prefix table"⟩], c⟩ := by
  have hlt : g < h.length := by
    rcases Nat.lt_or_ge g h.length with hl | hl
    · exact hl
    · rw [List.getElem?_eq_none hl] at hG; cases hG
  have hG' : (h ++ [luaH_set (luaH_set [] (.string "route") (.string (H.prefix2str p 100)))
      (.string "family") (.integer (c_lua_Integer p.family))])[g]? = some G := by
    rw [List.getElem?_append_left hlt]; exact hG
  simp only [ frrlua_newtable_prefix, zlog, zlog_debug, lua_newtable, lua_pushstring, lua_pushinteger,
    lua_setfield_new, bind, Except.bind, lua_setglobal, hG']
  simp [List.set_append, hlt, luaH_set, normKey]

/-- C5: on a live state and a prefix whose family is a value of its `uint8_t` field,
`frrlua_newtable_prefix` returns a state in which the global `prefix` is bound to a
table at a reference the heap did not hold before; that table is exactly the two fields
`family` (the family of the prefix) and `route` (what `prefix2str` gives for the
prefix); every global other than `prefix` has the value it had; the stack, the globals
reference and every heap table other than the globals table are as before. -/
theorem newtable_prefix_publishes (H : Host) (L : lua_State) (p : Prefix) (hwf : L.wf)
    (hfam : p.family < 2 ^ 8) :
    ∃ L', frrlua_newtable_prefix H L p = .ok L' ∧
      L.heap[L.heap.length]? = none ∧
      L'.global "prefix" = .table L.heap.length ∧
      L'.heap[L.heap.length]? =
        some [(.string "family", .integer p.family),
              (.string "route", .string (H.prefix2str p 100))] ∧
      (∀ name, name ≠ "prefix" → L'.global name = L.global name) ∧
      L'.stack = L.stack ∧ L'.globals = L.globals ∧
      ∀ r, r < L.heap.length → r ≠ L.globals → L'.heap[r]? = L.heap[r]? := by
  obtain ⟨s, h, g, z, c⟩ := L
  obtain ⟨hlt, -⟩ := hwf
  simp only at hlt
  have hG : h[g]? = some (h[g]) := List.getElem?_eq_getElem hlt
  refine ⟨_, newtable_prefix_eq H s h g z c p _ hG, by simp, ?_, ?_, ?_, rfl, rfl, ?_⟩
  · simp only [lua_State.global]
    rw [List.getElem?_append_left (by simpa using hlt)]
    simp only [List.getElem?_set_self hlt]
    exact luaH_get_set_same _ _ _ (by simp)
  · simp only
    rw [List.getElem?_append_right (by simp)]
    simp [c_lua_Integer_of_small _ hfam]
  · intro name hname
    simp only [lua_State.global]
    rw [List.getElem?_append_left (by simpa using hlt)]
    simp only [List.getElem?_set_self hlt, hG]
    exact luaH_get_set_other _ _ _ _ hname
  · intro r hr hne
    simp only
    rw [List.getElem?_append_left (by simpa using hr)]
    simp only at hne
    rw [List.getElem?_set_ne (Ne.symm hne)]

/-- C5 at `demoState` and an IPv4 prefix of family 2: `prefix` is bound to the table at
reference 1 and the stack is as before. -/
theorem newtable_prefix_publishes_witness :
    demoState.wf ∧ (2 : Nat) < 2 ^ 8 ∧
    ∃ L', frrlua_newtable_prefix demoHost demoState ⟨2, 24, [10, 0, 0, 0]⟩ = .ok L' ∧
      L'.global "prefix" = .table 1 ∧ L'.stack = [] := by
  obtain ⟨L', h1, -, h2, -, -, h3, -⟩ :=
    newtable_prefix_publishes demoHost demoState ⟨2, 24, [10, 0, 0, 0]⟩ (by decide)
      (by decide)
  exact ⟨by decide, by decide, L', h1, h2, h3⟩

/-! ## Logging (C7, C8) -/

/-- C7: the code does not bind the global `log`. On the state `lua_newstate` gives (an
empty stack) `frrlua_export_logging` indexes the stack at an index that is not valid.
On a live state with one table on the stack, which is not the globals table, it returns
with the global `log` unbound: the table of the five callables is stored in field `log`
of the table that was on the stack. -/
theorem export_logging_misses_globals :
    frrlua_export_logging (lua_newstate []) = .error .undefined ∧
    demoStateWithTable.wf ∧
    ∃ L', frrlua_export_logging demoStateWithTable = .ok L' ∧
      L'.global "log" = .nil ∧
      L'.heap[1]? = some [(.string "log", .table 2)] ∧
      L'.heap[2]? = some
        [(.string "error", .cfunction .frrlua_log_error),
         (.string "warn", .cfunction .frrlua_log_warn),
         (.string "notice", .cfunction .frrlua_log_notice),
         (.string "info", .cfunction .frrlua_log_info),
         (.string "debug", .cfunction .frrlua_log_debug)] := by
  refine ⟨rfl, by decide, _, rfl, ?_, ?_, ?_⟩
  · decide
  · decide
  · decide

/-- C8: each name of `log_funcs` is registered with the function of its severity, and
that function, run in a frame that holds exactly one string `s`, returns 0 (no result)
and appends to the host log exactly one record, of that severity and with message `s`;
run in a frame that holds any other number of values, every one of the five fails the
assertion, before anything is logged. -/
theorem log_callable_contract (I : Interp) (L : lua_State) (s : String)
    (hs : L.stack = [.string s]) :
    (log_funcs.lookup "debug" = some .frrlua_log_debug ∧
      runCFunc I .frrlua_log_debug L = .ok (0, zlog_debug L (some s))) ∧
    (log_funcs.lookup "info" = some .frrlua_log_info ∧
      runCFunc I .frrlua_log_info L = .ok (0, zlog_info L (some s))) ∧
    (log_funcs.lookup "notice" = some .frrlua_log_notice ∧
      runCFunc I .frrlua_log_notice L = .ok (0, zlog_notice L (some s))) ∧
    (log_funcs.lookup "warn" = some .frrlua_log_warn ∧
      runCFunc I .frrlua_log_warn L = .ok (0, zlog_warn L (some s))) ∧
    (log_funcs.lookup "error" = some .frrlua_log_error ∧
      runCFunc I .frrlua_log_error L = .ok (0, zlog_err L (some s))) ∧
    ((zlog_debug L (some s)).zlog = L.zlog ++ [⟨.debug, some s⟩] ∧
      (zlog_info L (some s)).zlog = L.zlog ++ [⟨.info, some s⟩] ∧
      (zlog_notice L (some s)).zlog = L.zlog ++ [⟨.notice, some s⟩] ∧
      (zlog_warn L (some s)).zlog = L.zlog ++ [⟨.warn, some s⟩] ∧
      (zlog_err L (some s)).zlog = L.zlog ++ [⟨.err, some s⟩]) ∧
    ∀ (c : CFunc) (L2 : lua_State), L2.stack.length ≠ 1 →
      runCFunc I c L2 = .error .assertion := by
  obtain ⟨st, h, g, z, c⟩ := L
  simp only at hs
  subst hs
  have h1 : index2addr ⟨[.string s], h, g, z, c⟩ 1 = some 0 := by
    simp [index2addr]
  refine ⟨⟨by decide, ?_⟩, ⟨by decide, ?_⟩, ⟨by decide, ?_⟩, ⟨by decide, ?_⟩, ⟨by decide, ?_⟩,
    ⟨rfl, rfl, rfl, rfl, rfl⟩, ?_⟩
  any_goals
    simp [runCFunc, frrlua_log_debug, frrlua_log_info, frrlua_log_notice, frrlua_log_warn,
      frrlua_log_error, frrlua_log_thunk, lua_gettop, lua_tostring, h1, zlog, zlog_debug,
      zlog_info, zlog_notice, zlog_warn, zlog_err,
      bind, Except.bind, pure, Except.pure]
  intro c2 L2 hn
  cases c2 <;>
    simp [runCFunc, frrlua_log_debug, frrlua_log_info, frrlua_log_notice, frrlua_log_warn,
      frrlua_log_error, frrlua_log_thunk, lua_gettop, hn, bind, Except.bind]

/-- C8 at concrete frames: `frrlua_log_warn` on the one string `hello`, and on an empty
frame. -/
theorem log_callable_contract_witness :
    runCFunc demoInterp .frrlua_log_warn { demoState with stack := [.string "hello"] } =
      .ok (0, zlog_warn { demoState with stack := [.string "hello"] } (some "hello")) ∧
    runCFunc demoInterp .frrlua_log_warn demoState = .error .assertion :=
  have h := log_callable_contract demoInterp { demoState with stack := [.string "hello"] }
    "hello" rfl
  ⟨h.2.2.2.1.2, h.2.2.2.2.2.2 .frrlua_log_warn demoState (by decide)⟩

/-! ## Rule execution (C1, C2, C10) -/

/-- A call does not depend on the stack of the caller. -/
theorem luaD_call_stack (I : Interp) (L : lua_State) (st : List LuaValue) (f : LuaValue)
    (args : List LuaValue) :
    luaD_call I { L with stack := st } f args = luaD_call I L f args := by
  cases f <;> rfl

/-- The rule runner, computed from the outcome of calling the global. -/
theorem run_rm_rule_eq (H : Host) (I : Interp) (L : lua_State) (rule : String)
    (hlt : L.globals < L.heap.length) :
    frrlua_run_rm_rule H I L rule =
      rmRuleResult H I L rule (luaD_call I L (L.global rule) []) := by
  obtain ⟨st, h, g, z, c⟩ := L
  simp only at hlt
  have hG : h[g]? = some (h[g]) := List.getElem?_eq_getElem hlt
  have hstack := luaD_call_stack I ⟨st, h, g, z, c⟩ (luaH_get h[g] (.string rule) :: st)
    (luaH_get h[g] (.string rule)) []
  simp only at hstack
  simp only [frrlua_run_rm_rule, lua_getglobal, hG, lua_State.global, lua_pcall, bind,
    Except.bind, List.getElem?_cons_zero, List.take_zero, List.reverse_nil, hstack]
  cases hcall : luaD_call I ⟨st, h, g, z, c⟩ (luaH_get h[g] (.string rule)) [] with
  | returns rs heap zl =>
    cases rs with
    | nil =>
      simp [rmRuleResult, adjust_results, LUA_OK, LUA_MULTRET, lua_tonumber, index2value_top,
        pure, Except.pure]
    | cons r rs =>
      simp [rmRuleResult, adjust_results, LUA_OK, LUA_MULTRET, lua_tonumber, index2value_top,
        pure, Except.pure]
  | raises e err heap zl =>
    cases e <;> simp [rmRuleResult, ErrStatus.code, zlog, zlog_debug, pure, Except.pure]
  | stop s => simp [rmRuleResult]

theorem double2int_cast_num (N : Int) (h : fitsInt N) : double2int (cast_num N) = some N := by
  have hN := h
  unfold fitsInt at hN
  have hlt : N.natAbs < 2 ^ 53 := by
    norm_num at hN ⊢
    omega
  have hc : cast_num N = .finite N := by
    unfold cast_num
    simp only [hlt, if_true]
  rw [hc]
  simp [double2int, h]

theorem double2int_zero : double2int (.finite 0) = some 0 := by
  simp [double2int, fitsInt]

theorem run_rm_rule_globals (H : Host) (I : Interp) (L : lua_State) (rule : String)
    (r : Int) (L' : lua_State) (h : frrlua_run_rm_rule H I L rule = .ok (r, L')) :
    L.globals < L.heap.length := by
  rcases Nat.lt_or_ge L.globals L.heap.length with hl | hl
  · exact hl
  · have hnone : L.heap[L.globals]? = none := List.getElem?_eq_none hl
    simp [frrlua_run_rm_rule, lua_getglobal, hnone, bind, Except.bind] at h

theorem run_rm_rule_ok_stack (H : Host) (I : Interp) (L : lua_State) (rule : String)
    (r : Int) (L' : lua_State) (h : frrlua_run_rm_rule H I L rule = .ok (r, L')) :
    L'.stack.length = L.stack.length + 1 := by
  have hlt := run_rm_rule_globals H I L rule r L' h
  rw [run_rm_rule_eq H I L rule hlt] at h
  cases hcall : luaD_call I L (L.global rule) [] with
  | returns rs heap zl =>
    rw [hcall] at h
    simp only [rmRuleResult] at h
    cases hd : double2int ((luaV_tonumber I (rs.headD .nil)).getD (.finite 0)) with
    | none => rw [hd] at h; cases h
    | some n =>
      rw [hd] at h
      simp only [Except.ok.injEq, Prod.mk.injEq] at h
      rw [← h.2]; rfl
  | raises e err heap zl =>
    rw [hcall] at h
    simp only [rmRuleResult, Except.ok.injEq, Prod.mk.injEq] at h
    rw [← h.2]; rfl
  | stop s => rw [hcall] at h; cases h

/-- C1: on a live state, whenever the protected call of the global reports a non-zero
status, `frrlua_run_rm_rule` returns `LUA_RM_FAILURE` (after logging name and status);
in particular it does so, and returns normally, when the global is unbound or bound to a
value that is not callable, and when it is bound to a script function that raises an
error. -/
theorem run_rm_rule_failure (H : Host) (I : Interp) (L : lua_State) (rule : String)
    (hwf : L.wf) :
    (∀ L1 status L2, lua_getglobal L rule = .ok L1 → lua_pcall I L1 0 1 = .ok (status, L2) →
      status ≠ 0 →
      frrlua_run_rm_rule H I L rule =
        .ok (H.LUA_RM_FAILURE,
          zlog_debug L2 (some ("Executing Failure with function: " ++ rule ++ ": " ++
            toString status)))) ∧
    ((L.global rule).callable = false →
      ∃ L', frrlua_run_rm_rule H I L rule = .ok (H.LUA_RM_FAILURE, L')) ∧
    (∀ fid e err heap zl, L.global rule = .closure fid →
      I.call fid [] { L with stack := [] } = .raises e err heap zl →
      ∃ L', frrlua_run_rm_rule H I L rule = .ok (H.LUA_RM_FAILURE, L')) := by
  refine ⟨?_, ?_, ?_⟩
  · intro L1 status L2 hg hp hs
    simp [frrlua_run_rm_rule, hg, hp, hs, bind, Except.bind, pure, Except.pure]
  · intro hc
    rw [run_rm_rule_eq H I L rule hwf.1]
    cases hv : L.global rule <;> rw [hv] at hc <;>
      first
      | exact ⟨_, rfl⟩
      | (simp [LuaValue.callable] at hc)
  · intro fid e err heap zl hv hcall
    rw [run_rm_rule_eq H I L rule hwf.1, hv]
    have : luaD_call I L (.closure fid) [] = .raises e err heap zl := hcall
    rw [this]
    exact ⟨_, rfl⟩

/-- C1 at `demoState`: the unbound name `nope` and the raising function `bad` both give
`LUA_RM_FAILURE`; the last part goes through the status 2 that `lua_pcall` reports for
`bad`. -/
theorem run_rm_rule_failure_witness :
    demoState.wf ∧
    (∃ L', frrlua_run_rm_rule demoHost demoInterp demoState "nope" =
      .ok (demoHost.LUA_RM_FAILURE, L')) ∧
    (∃ L', frrlua_run_rm_rule demoHost demoInterp demoState "bad" =
      .ok (demoHost.LUA_RM_FAILURE, L')) ∧
    (∃ L1 L2 L', lua_getglobal demoState "bad" = .ok L1 ∧
      lua_pcall demoInterp L1 0 1 = .ok (2, L2) ∧
      frrlua_run_rm_rule demoHost demoInterp demoState "bad" =
        .ok (demoHost.LUA_RM_FAILURE, L')) :=
  have h1 := run_rm_rule_failure demoHost demoInterp demoState "nope" (by decide)
  have h2 := run_rm_rule_failure demoHost demoInterp demoState "bad" (by decide)
  ⟨by decide, h1.2.1 (by decide),
    h2.2.2 1 .LUA_ERRRUN (.string "boom") demoState.heap demoState.zlog rfl rfl,
    ⟨_, _, _, rfl, rfl, h2.1 _ 2 _ rfl rfl (by decide)⟩⟩

/-- C2: on a live state, when the call of the global completes, `frrlua_run_rm_rule`
returns the first result (`nil` if there is none) converted to a number and then to
`int`: exactly `N` for an integer `N` that is a value of `int`, with no check of the
range of statuses, 0 for a value that does not convert to a number, and in general the
truncation of the number, the C conversion being undefined outside `int`. -/
theorem run_rm_rule_passthrough (H : Host) (I : Interp) (L : lua_State) (rule : String)
    (rs : List LuaValue) (heap : List Table) (zl : List LogRecord) (hwf : L.wf)
    (hcall : luaD_call I L (L.global rule) [] = .returns rs heap zl) :
    (∀ N : Int, rs.headD .nil = .integer N → fitsInt N →
      frrlua_run_rm_rule H I L rule =
        .ok (N, { L with stack := .integer N :: L.stack, heap := heap, zlog := zl })) ∧
    (luaV_tonumber I (rs.headD .nil) = none →
      frrlua_run_rm_rule H I L rule =
        .ok (0, { L with stack := rs.headD .nil :: L.stack, heap := heap, zlog := zl })) ∧
    (∀ x, luaV_tonumber I (rs.headD .nil) = some x →
      frrlua_run_rm_rule H I L rule =
        match double2int x with
        | some n =>
          .ok (n, { L with stack := rs.headD .nil :: L.stack, heap := heap, zlog := zl })
        | none => .error .undefined) := by
  rw [run_rm_rule_eq H I L rule hwf.1, hcall]
  refine ⟨?_, ?_, ?_⟩
  · intro N hN hfit
    simp only [rmRuleResult, hN, luaV_tonumber, Option.getD_some, double2int_cast_num N hfit]
  · intro hnone
    simp only [rmRuleResult, hnone, Option.getD_none, double2int_zero]
  · intro x hx
    simp only [rmRuleResult, hx, Option.getD_some]

/-- C2 at `demoState`: `deny` returns -1, `accept` returns 1, and `odd`, which returns
a string that is not a number, gives 0. -/
theorem run_rm_rule_passthrough_witness :
    demoState.wf ∧
    frrlua_run_rm_rule demoHost demoInterp demoState "deny" =
      .ok (-1, { demoState with stack := [.integer (-1)] }) ∧
    frrlua_run_rm_rule demoHost demoInterp demoState "accept" =
      .ok (1, { demoState with stack := [.integer 1] }) ∧
    frrlua_run_rm_rule demoHost demoInterp demoState "odd" =
      .ok (0, { demoState with stack := [.string "abc"] }) :=
  ⟨by decide,
    (run_rm_rule_passthrough demoHost demoInterp demoState "deny" [.integer (-1)]
      demoState.heap demoState.zlog (by decide) rfl).1 (-1) rfl (by decide),
    (run_rm_rule_passthrough demoHost demoInterp demoState "accept" [.integer 1]
      demoState.heap demoState.zlog (by decide) rfl).1 1 rfl (by decide),
    (run_rm_rule_passthrough demoHost demoInterp demoState "odd" [.string "abc"]
      demoState.heap demoState.zlog (by decide) rfl).2.1 rfl⟩

/-- C10: whenever `frrlua_run_rm_rule` returns, the stack is one value deeper than
before, so running `n` rules one after the other leaves it `n` deeper; and on a live
state it does return on both outcomes of the call, with the error object on top after a
failed call and the (first) return value on top after a completed call whose value
converts to `int`. -/
theorem run_rm_rule_stack_grows (H : Host) (I : Interp) (L : lua_State) :
    (∀ rule r L', frrlua_run_rm_rule H I L rule = .ok (r, L') →
      L'.stack.length = L.stack.length + 1) ∧
    (∀ rules L', run_rules H I L rules = .ok L' →
      L'.stack.length = L.stack.length + rules.length) ∧
    (L.wf → ∀ rule,
      (∀ e err heap zl, luaD_call I L (L.global rule) [] = .raises e err heap zl →
        ∃ L', frrlua_run_rm_rule H I L rule = .ok (H.LUA_RM_FAILURE, L') ∧
          L'.stack = err :: L.stack) ∧
      (∀ rs heap zl n, luaD_call I L (L.global rule) [] = .returns rs heap zl →
        double2int ((luaV_tonumber I (rs.headD .nil)).getD (.finite 0)) = some n →
        ∃ L', frrlua_run_rm_rule H I L rule = .ok (n, L') ∧
          L'.stack = rs.headD .nil :: L.stack)) := by
  refine ⟨fun rule r L' h => run_rm_rule_ok_stack H I L rule r L' h, ?_, ?_⟩
  · intro rules
    induction rules generalizing L with
    | nil =>
      intro L' h
      simp only [run_rules, Except.ok.injEq] at h
      rw [← h]; rfl
    | cons rule rules ih =>
      intro L' h
      simp only [run_rules, bind, Except.bind] at h
      cases h1 : frrlua_run_rm_rule H I L rule with
      | error s => rw [h1] at h; cases h
      | ok v =>
        obtain ⟨r, L1⟩ := v
        rw [h1] at h
        have hstep := run_rm_rule_ok_stack H I L rule r L1 h1
        have := ih L1 L' h
        rw [this, hstep, List.length_cons]
        omega
  · intro hwf rule
    refine ⟨?_, ?_⟩
    · intro e err heap zl hcall
      rw [run_rm_rule_eq H I L rule hwf.1, hcall]
      exact ⟨_, rfl, rfl⟩
    · intro rs heap zl n hcall hd
      rw [run_rm_rule_eq H I L rule hwf.1, hcall]
      simp only [rmRuleResult, hd]
      exact ⟨_, rfl, rfl⟩

/-- C10 at `demoState`: a completed call, a raised error and an unbound name leave
three values on the stack that was empty. -/
theorem run_rm_rule_stack_grows_witness :
    ∃ L', run_rules demoHost demoInterp demoState ["accept", "bad", "nope"] = .ok L' ∧
      L'.stack.length = 3 := by
  have h : ∃ L', run_rules demoHost demoInterp demoState ["accept", "bad", "nope"] = .ok L' :=
    ⟨_, rfl⟩
  obtain ⟨L', h⟩ := h
  exact ⟨L', h, (run_rm_rule_stack_grows demoHost demoInterp demoState).2.1 _ L' h⟩

/-! ## Initialization (C9) -/

/-- `luaL_loadfile` reports a non-zero status exactly when the load failed. -/
theorem luaL_loadfile_status (I : Interp) (L : lua_State) (f : String) :
    (luaL_loadfile I L f).1 ≠ 0 ↔ ∃ e msg, I.loadfile f = (some e, msg) := by
  unfold luaL_loadfile
  rcases hl : I.loadfile f with ⟨st, v⟩
  cases st with
  | none => simp [LUA_OK]
  | some e => cases e <;> simp [ErrStatus.code]

theorem initialize_none (I : Interp) (z : List LogRecord) :
    frrlua_initialize I z true none =
      .ok ⟨some (luaL_openlibs I (lua_newstate z)), luaL_openlibs I (lua_newstate z)⟩ := by
  simp [ frrlua_initialize]

theorem initialize_load_failure (I : Interp) (z : List LogRecord) (f : String)
    (e : ErrStatus) (msg : LuaValue) (hl : I.loadfile f = (some e, msg)) :
    frrlua_initialize I z true (some f) =
      .ok ⟨none, lua_close (zlog_debug
        { luaL_openlibs I (lua_newstate z) with
          stack := msg :: (luaL_openlibs I (lua_newstate z)).stack }
        (some ("Failure to open " ++ f ++ " " ++ toString e.code)))⟩ := by
  have hne : e.code ≠ 0 := by cases e <;> simp [ErrStatus.code]
  simp only [ frrlua_initialize, luaL_loadfile, hl, hne, Bool.true_eq_false, if_false,
    if_true, ne_eq, not_false_eq_true]

theorem initialize_loaded (I : Interp) (z : List LogRecord) (f : String) (chunk : LuaValue)
    (hl : I.loadfile f = (none, chunk)) :
    frrlua_initialize I z true (some f) =
      loadedResult (luaL_openlibs I (lua_newstate z))
        (luaD_call I (luaL_openlibs I (lua_newstate z)) chunk []) := by
  have hs := luaD_call_stack I (luaL_openlibs I (lua_newstate z))
    (chunk :: (luaL_openlibs I (lua_newstate z)).stack) chunk []
  simp only [ frrlua_initialize, luaL_loadfile, hl, LUA_OK, ne_eq, not_true_eq_false,
    if_false, Bool.true_eq_false, bind, Except.bind, lua_pcall, List.getElem?_cons_zero,
    List.take_zero, List.reverse_nil, hs]
  cases luaD_call I (luaL_openlibs I (lua_newstate z)) chunk [] <;>
    simp [loadedResult, adjust_results, pure, Except.pure]

/-- C9: with the state allocated, whenever `frrlua_initialize` returns, its handle is
NULL exactly when a path was given and `luaL_loadfile` reported a non-zero status on
it; a NULL handle comes with the state closed, any other handle is the live state. It
does return: with a live handle when no path is given, with NULL and the state closed
when the load fails, and with a live handle when the file loads and the run of its
chunk comes back, whether it completes or raises an error. -/
theorem initialize_handle (I : Interp) (z : List LogRecord) :
    (∀ file r, frrlua_initialize I z true file = .ok r →
      (r.handle = none ↔
        ∃ f, file = some f ∧ (luaL_loadfile I (luaL_openlibs I (lua_newstate z)) f).1 ≠ 0) ∧
      (r.handle = none → r.state.closed = true) ∧
      (∀ L, r.handle = some L → L = r.state ∧ L.closed = false)) ∧
    (∃ L, frrlua_initialize I z true none = .ok ⟨some L, L⟩ ∧ L.closed = false) ∧
    (∀ f, (luaL_loadfile I (luaL_openlibs I (lua_newstate z)) f).1 ≠ 0 →
      ∃ st, frrlua_initialize I z true (some f) = .ok ⟨none, st⟩ ∧ st.closed = true) ∧
    (∀ f chunk, I.loadfile f = (none, chunk) →
      (∀ rs heap zl,
        luaD_call I (luaL_openlibs I (lua_newstate z)) chunk [] = .returns rs heap zl →
        ∃ L, frrlua_initialize I z true (some f) = .ok ⟨some L, L⟩ ∧ L.closed = false) ∧
      (∀ e err heap zl,
        luaD_call I (luaL_openlibs I (lua_newstate z)) chunk [] = .raises e err heap zl →
        ∃ L, frrlua_initialize I z true (some f) = .ok ⟨some L, L⟩ ∧ L.closed = false)) := by
  refine ⟨?_, ?_, ?_, ?_⟩
  · intro file r h
    cases file with
    | none =>
      rw [initialize_none, Except.ok.injEq] at h
      subst h
      simp [luaL_openlibs, lua_newstate]
    | some f =>
      rcases hl : I.loadfile f with ⟨st, v⟩
      cases st with
      | some e =>
        rw [initialize_load_failure I z f e v hl, Except.ok.injEq] at h
        subst h
        have hst := (luaL_loadfile_status I (luaL_openlibs I (lua_newstate z)) f).2
          ⟨e, v, hl⟩
        refine ⟨⟨fun _ => ⟨f, rfl, hst⟩, fun _ => rfl⟩, fun _ => rfl, ?_⟩
        intro L hL
        cases hL
      | none =>
        rw [initialize_loaded I z f v hl] at h
        have hst : ¬ (luaL_loadfile I (luaL_openlibs I (lua_newstate z)) f).1 ≠ 0 := by
          rw [luaL_loadfile_status]
          rintro ⟨e, msg, he⟩
          rw [hl] at he
          cases he
        cases hc : luaD_call I (luaL_openlibs I (lua_newstate z)) v [] with
        | returns rs heap zl =>
          rw [hc] at h
          simp only [loadedResult, Except.ok.injEq] at h
          subst h
          refine ⟨⟨fun hn => (by cases hn), ?_⟩, fun hn => (by cases hn), ?_⟩
          · rintro ⟨f', hf', hne⟩
            cases hf'
            exact absurd hne hst
          · intro L hL
            cases hL
            exact ⟨rfl, rfl⟩
        | raises e err heap zl =>
          rw [hc] at h
          simp only [loadedResult, Except.ok.injEq] at h
          subst h
          refine ⟨⟨fun hn => (by cases hn), ?_⟩, fun hn => (by cases hn), ?_⟩
          · rintro ⟨f', hf', hne⟩
            cases hf'
            exact absurd hne hst
          · intro L hL
            cases hL
            exact ⟨rfl, rfl⟩
        | stop s => rw [hc] at h; cases h
  · exact ⟨_, initialize_none I z, rfl⟩
  · intro f hf
    obtain ⟨e, msg, hl⟩ := (luaL_loadfile_status I _ f).1 hf
    exact ⟨_, initialize_load_failure I z f e msg hl, rfl⟩
  · intro f chunk hl
    refine ⟨?_, ?_⟩
    · intro rs heap zl hc
      rw [initialize_loaded I z f chunk hl, hc]
      exact ⟨_, rfl, rfl⟩
    · intro e err heap zl hc
      rw [initialize_loaded I z f chunk hl, hc]
      exact ⟨_, rfl, rfl⟩

/-- C9 at `demoInterp`: a file that does not load, a file whose chunk raises an error,
and a file whose chunk completes. -/
theorem initialize_handle_witness :
    (∃ st, frrlua_initialize demoInterp [] true (some "missing.lua") = .ok ⟨none, st⟩ ∧
      st.closed = true) ∧
    (∃ L, frrlua_initialize demoInterp [] true (some "err.lua") = .ok ⟨some L, L⟩ ∧
      L.closed = false) ∧
    (∃ L, frrlua_initialize demoInterp [] true (some "ok.lua") = .ok ⟨some L, L⟩ ∧
      L.closed = false) :=
  have h := initialize_handle demoInterp []
  ⟨h.2.2.1 "missing.lua" (by decide),
    (h.2.2.2 "err.lua" (.closure 1) rfl).2 .LUA_ERRRUN (.string "boom") [[]] [] rfl,
    (h.2.2.2 "ok.lua" (.closure 0) rfl).1 [.integer 1] [[]] [] rfl⟩

end Frrlua
